import Mathlib

/-!
Shallow embedding of the ETL pipeline in `src/etl.ipynb` of the
`data-modeling-cassandra` repository, together with theorems settling the
frozen claims about it.

Part I of the notebook (the Aggregator) scans raw event CSV files, keeps the
rows whose field at index 10 equals the sentinel `"NextSong"`, projects the
fields at indices 0, 2, 4, 5, 6, 12, 13, 16 and writes them, fully quoted,
to one consolidated CSV file opened in truncate mode.

Part II (the Batch Loader) reads the consolidated file in chunks of 100
records; each record contributes three prepared inserts (one per table) to a
single `BatchStatement`; the batch is submitted once per chunk.  On a failed
submission the exception is caught and printed; `batch.clear()` and
`batches += 1` run only in the `else` (success) branch.

The Teardown cell drops the three tables inside a single `try` block and the
final cell shuts down the session and the cluster.
-/

namespace Sparkify

/-! ## Aggregator: data model

A raw CSV row, as produced by `csv.reader`, is a list of string fields.
-/

abbrev Row := List String

/-- The event-type sentinel the filter compares against: `row[10] == "NextSong"`. -/
def sentinel : String := "NextSong"

/-- The header row written first to the consolidated file. -/
def headerRow : List String :=
  ["artist_name", "user_first_name", "item_in_session", "user_last_name",
   "song_length", "session_id", "song_title", "user_id"]

/-- The projection of a qualifying row: the notebook evaluates
`row[0], row[2], row[4], row[5], row[6], row[12], row[13], row[16]` in order;
the first out-of-range index raises `IndexError`, modelled by `none`. -/
def projectRow (row : Row) : Option (List String) :=
  row[0]?.bind fun f0 =>
  row[2]?.bind fun f2 =>
  row[4]?.bind fun f4 =>
  row[5]?.bind fun f5 =>
  row[6]?.bind fun f6 =>
  row[12]?.bind fun f12 =>
  row[13]?.bind fun f13 =>
  row[16]?.map fun f16 =>
  [f0, f2, f4, f5, f6, f12, f13, f16]

/-- Processing of one data row in the Aggregator loop.
`row[10]` is evaluated first (an out-of-range index raises, modelled by
`.error ()`); if it equals the sentinel the row is projected (again raising on
a missing index), otherwise the row is silently discarded (`.ok none`). -/
def processRow (row : Row) : Except Unit (Option (List String)) :=
  match row[10]? with
  | none => .error ()
  | some v =>
    if v = sentinel then
      match projectRow row with
      | none => .error ()
      | some p => .ok (some p)
    else .ok none

/-- The mutable state of the Aggregator cell: the `read` and `written`
counters and the data rows written so far to the consolidated file. -/
structure AggState where
  read : Nat
  written : Nat
  out : List (List String)
deriving Repr, DecidableEq

/-- The initial Aggregator state: counters at zero, only the header written. -/
def initAgg : AggState := ⟨0, 0, []⟩

/-- The inner `for row in reader` loop: each row increments `read`; a
qualifying row is appended to the output and increments `written`; an
out-of-range index aborts the whole run (the exception propagates). -/
def processRows : List Row → AggState → Except Unit AggState
  | [], st => .ok st
  | row :: rest, st =>
    match processRow row with
    | .error _ => .error ()
    | .ok none => processRows rest { st with read := st.read + 1 }
    | .ok (some p) =>
        processRows rest
          { st with read := st.read + 1, written := st.written + 1,
                    out := st.out ++ [p] }

/-- Processing of one discovered input file, as a list of CSV rows:
`next(reader)` skips the header and raises `StopIteration` on a file with no
rows at all; the remaining rows are processed in order. -/
def processFile (file : List Row) (st : AggState) : Except Unit AggState :=
  match file with
  | [] => .error ()
  | _header :: rows => processRows rows st

/-- The outer `for path in glob.glob(...)` loop over discovered files, in
discovery order; an exception in any file aborts the run. -/
def processFiles : List (List Row) → AggState → Except Unit AggState
  | [], st => .ok st
  | f :: fs, st =>
    match processFile f st with
    | .error _ => .error ()
    | .ok st' => processFiles fs st'

/-- The whole Aggregator cell on a list of discovered files. -/
def aggregate (files : List (List Row)) : Except Unit AggState :=
  processFiles files initAgg

/-! ## Aggregator: output rendering

`csv.writer(output_file, quoting=csv.QUOTE_ALL, ...)` wraps every field in
double quotes, doubling any embedded quote character, and terminates each
record with CRLF (the writer's default line terminator, kept verbatim because
the file is opened with `newline=""`).
-/

/-- Double every embedded quote character, as the csv writer does before
wrapping a field in quotes. -/
def escapeQuotes (s : String) : String :=
  ⟨s.data.foldr (fun c acc => if c = '"' then '"' :: '"' :: acc else c :: acc) []⟩

/-- A field as emitted under `QUOTE_ALL`: always wrapped in double quotes. -/
def quoteField (s : String) : String :=
  "\"" ++ escapeQuotes s ++ "\""

/-- One emitted CSV record: quoted fields joined by commas, CRLF-terminated. -/
def renderRow (r : List String) : String :=
  String.intercalate "," (r.map quoteField) ++ "\r\n"

/-- The full text of the consolidated file for a successful run: the header
record followed by the written data records. -/
def outputText (st : AggState) : String :=
  String.join ((headerRow :: st.out).map renderRow)

/-- A run of the Aggregator cell as a file-system transformation: `prev` is
whatever the consolidated file held before the run; `open(OUTPUT_CSV, "w")`
truncates it, so the result depends only on the discovered input files. -/
def runAggregator (files : List (List Row)) (_prev : String) : Except Unit String :=
  (aggregate files).map outputText

/-! ## Aggregator: row-level specification vocabulary -/

/-- A data row qualifies when its field at index 10 is the sentinel. -/
def qualifies (row : Row) : Bool :=
  row[10]? = some sentinel

/-- All data rows of the discovered files: every row after each file's header,
in discovery order. -/
def dataRows (files : List (List Row)) : List Row :=
  (files.map List.tail).flatten

/-- The projection of a row by direct indexing with a default, total form of
`projectRow` used to state what a successful run writes. -/
def projFields (row : Row) : List String :=
  [row.getD 0 "", row.getD 2 "", row.getD 4 "", row.getD 5 "",
   row.getD 6 "", row.getD 12 "", row.getD 13 "", row.getD 16 ""]

/-! ## Batch Loader: data model

A consolidated record is one data row of `event_data_new.csv`, with the
eight named columns of the header.  The pandas cell types some columns as
numbers; the claims under study concern only counts and batch membership, so
field values are kept as strings.
-/

structure ConsolidatedRecord where
  artist_name : String
  user_first_name : String
  item_in_session : String
  user_last_name : String
  song_length : String
  session_id : String
  song_title : String
  user_id : String
deriving Repr, DecidableEq

/-- The three target tables. -/
inductive StoreTable where
  | songs_by_session
  | songs_by_user
  | users_by_song
deriving Repr, DecidableEq

/-- One statement added to the batch: a prepared insert for one table bound
to the values projected from one consolidated record. -/
structure Stmt where
  table : StoreTable
  values : List String
deriving Repr, DecidableEq

/-- `row[songs_by_session_columns].values.tolist()`. -/
def songs_by_session_values (r : ConsolidatedRecord) : List String :=
  [r.session_id, r.item_in_session, r.artist_name, r.song_title, r.song_length]

/-- `row[songs_by_user_columns].values.tolist()`. -/
def songs_by_user_values (r : ConsolidatedRecord) : List String :=
  [r.user_id, r.session_id, r.item_in_session, r.artist_name, r.song_title,
   r.user_first_name, r.user_last_name]

/-- `row[users_by_song_columns].values.tolist()`. -/
def users_by_song_values (r : ConsolidatedRecord) : List String :=
  [r.song_title, r.user_id, r.user_first_name, r.user_last_name]

/-- The three `batch.add` calls performed for one record, in order. -/
def rowInserts (r : ConsolidatedRecord) : List Stmt :=
  [⟨.songs_by_session, songs_by_session_values r⟩,
   ⟨.songs_by_user, songs_by_user_values r⟩,
   ⟨.users_by_song, users_by_song_values r⟩]

/-- All statements a window (chunk) of records contributes to the batch. -/
def chunkInserts (c : List ConsolidatedRecord) : List Stmt :=
  (c.map rowInserts).flatten

/-- Structural worker for `chunks100`: `fuel` only bounds the recursion depth
(it is set to the list length, an upper bound on the number of windows), so
the definition reduces in the kernel; the `fuel = 0` row is unreachable for
`fuel ≥ length`.  Each step takes one window of up to 100 records. -/
def chunksAux {α : Type} : Nat → List α → List (List α)
  | _, [] => []
  | 0, _ :: _ => []
  | fuel + 1, r :: rest =>
      ((r :: rest).take 100) :: chunksAux fuel ((r :: rest).drop 100)

/-- `pd.read_csv(OUTPUT_CSV, chunksize=CHUNK_SIZE)` with `CHUNK_SIZE = 100`:
the record stream split into consecutive windows of 100, the last window
possibly shorter; an empty stream yields no window. -/
def chunks100 {α : Type} (l : List α) : List (List α) :=
  chunksAux l.length l

/-- The mutable state of the `Run the process` cell: the `batches` and
`records` counters, the current contents of the reused `BatchStatement`, the
sequence of batch contents passed to `session.execute` so far, and how many
submissions have been made. -/
structure LoaderState where
  batches : Nat
  records : Nat
  batch : List Stmt
  submitted : List (List Stmt)
  submissions : Nat
deriving Repr, DecidableEq

def initLoader : LoaderState := ⟨0, 0, [], [], 0⟩

/-- The body of `for _, row in df.iterrows()`: three `batch.add` calls and
`records += 3`. -/
def addRecord (st : LoaderState) (r : ConsolidatedRecord) : LoaderState :=
  { st with batch := st.batch ++ rowInserts r, records := st.records + 3 }

/-- One iteration of `for df in pd.read_csv(...)`: add every record of the
chunk to the batch, then `session.execute(batch)` inside `try`.  `fails k`
tells whether the k-th `execute` call (0-based) raises.  On failure the
exception is printed and nothing else happens; only the `else` branch runs
`batch.clear()` and `batches += 1`. -/
def processChunk (fails : Nat → Bool) (st : LoaderState)
    (chunk : List ConsolidatedRecord) : LoaderState :=
  let st1 := chunk.foldl addRecord st
  let st2 := { st1 with submitted := st1.submitted ++ [st1.batch],
                        submissions := st1.submissions + 1 }
  if fails st1.submissions then st2
  else { st2 with batch := [], batches := st1.batches + 1 }

/-- The whole `Run the process` cell on a consolidated record stream. -/
def runLoader (fails : Nat → Bool) (recs : List ConsolidatedRecord) : LoaderState :=
  (chunks100 recs).foldl (processChunk fails) initLoader

/-- Closed form of the sequence of submitted batch contents: starting at
submission index `k` with `carry` left in the batch, each window's submission
holds the carry followed by the window's own inserts; a failed submission's
contents become the next carry (the batch is cleared only on success). -/
def submittedSpec (fails : Nat → Bool) : Nat → List Stmt →
    List (List ConsolidatedRecord) → List (List Stmt)
  | _, _, [] => []
  | k, carry, c :: cs =>
      (carry ++ chunkInserts c) ::
        submittedSpec fails (k + 1)
          (if fails k then carry ++ chunkInserts c else []) cs

/-- Closed form of the batch contents left over after processing a list of
windows: a failed submission leaves its whole batch in place, a successful
one clears it. -/
def carrySpec (fails : Nat → Bool) : Nat → List Stmt →
    List (List ConsolidatedRecord) → List Stmt
  | _, carry, [] => carry
  | k, carry, c :: cs =>
      carrySpec fails (k + 1)
        (if fails k then carry ++ chunkInserts c else []) cs

/-- Number of successful submissions among `n` consecutive ones starting at
submission index `k`. -/
def succCount (fails : Nat → Bool) : Nat → Nat → Nat
  | _, 0 => 0
  | k, n + 1 => (if fails k then 0 else 1) + succCount fails (k + 1) n

/-! ## Teardown

The `Drop the tables` cell wraps the three `DROP TABLE` statements in a
single `try` block; the first raised error is printed and ends the block.
`DROP TABLE` without `IF EXISTS` errors when the table does not exist, so a
drop is modelled as failing exactly on a missing table.  The
`Close the session` cell then shuts down the session and the cluster
unconditionally.
-/

/-- Which of the three tables currently exist in the store. -/
structure Tables where
  songs_by_session : Bool
  songs_by_user : Bool
  users_by_song : Bool
deriving Repr, DecidableEq

/-- The session and cluster handles held by the notebook. -/
structure Connection where
  sessionOpen : Bool
  clusterOpen : Bool
deriving Repr, DecidableEq

/-- `session.execute("DROP TABLE songs_by_session")`. -/
def dropSongsBySession (t : Tables) : Except String Tables :=
  if t.songs_by_session then .ok { t with songs_by_session := false }
  else .error "Error while dropping the table"

/-- `session.execute("DROP TABLE songs_by_user")`. -/
def dropSongsByUser (t : Tables) : Except String Tables :=
  if t.songs_by_user then .ok { t with songs_by_user := false }
  else .error "Error while dropping the table"

/-- `session.execute("DROP TABLE users_by_song")`. -/
def dropUsersBySong (t : Tables) : Except String Tables :=
  if t.users_by_song then .ok { t with users_by_song := false }
  else .error "Error while dropping the table"

/-- The `Drop the tables` cell: three sequential drops inside one `try`; the
first failure is caught, printed (the returned message) and aborts the rest
of the block. -/
def dropTablesCell (t : Tables) : Tables × Option String :=
  match dropSongsBySession t with
  | .error e => (t, some e)
  | .ok t1 =>
    match dropSongsByUser t1 with
    | .error e => (t1, some e)
    | .ok t2 =>
      match dropUsersBySong t2 with
      | .error e => (t2, some e)
      | .ok t3 => (t3, none)

/-- The `Close the session` cell: `session.shutdown()` then
`cluster.shutdown()`. -/
def closeSessionCell (_c : Connection) : Connection :=
  ⟨false, false⟩

/-- The whole teardown: drop cell followed by the close cell. -/
def teardown (t : Tables) (c : Connection) :
    Tables × Option String × Connection :=
  let r := dropTablesCell t
  (r.1, r.2, closeSessionCell c)

/-! ## Concrete sample inputs used by witnesses and counterexamples -/

/-- A well-formed qualifying raw row: 17 fields, field 10 is the sentinel. -/
def qRow : Row :=
  ["ArtistX", "f01", "FirstX", "f03", "4", "LastX", "200.5", "f07", "f08",
   "f09", "NextSong", "f11", "338", "SongX", "f14", "f15", "10"]

/-- A well-formed non-qualifying raw row: 17 fields, field 10 is `"Login"`. -/
def nRow : Row :=
  ["a00", "a01", "a02", "a03", "a04", "a05", "a06", "a07", "a08",
   "a09", "Login", "a11", "a12", "a13", "a14", "a15", "a16"]

/-- A sample discovered-file list: one file with a header and two data rows. -/
def sampleFiles : List (List Row) := [[["hdr"], qRow, nRow]]

/-- The Aggregator state a run over `sampleFiles` ends in. -/
def sampleAggSt : AggState :=
  ⟨2, 1, [["ArtistX", "FirstX", "4", "LastX", "200.5", "338", "SongX", "10"]]⟩

/-- A sample consolidated record. -/
def sampleRecord : ConsolidatedRecord :=
  ⟨"ArtistX", "FirstX", "4", "LastX", "200.5", "338", "SongX", "10"⟩

/-! ## Aggregator lemmas -/

lemma getElem?_eq_some_getD (l : List String) (n : Nat) (h : n < l.length) :
    l[n]? = some (l.getD n "") := by
  rw [List.getD_eq_getElem?_getD, List.getElem?_eq_getElem h]
  rfl

lemma projectRow_eq_some (r : Row) (h : 17 ≤ r.length) :
    projectRow r = some (projFields r) := by
  unfold projectRow projFields
  rw [getElem?_eq_some_getD r 0 (by omega), getElem?_eq_some_getD r 2 (by omega),
      getElem?_eq_some_getD r 4 (by omega), getElem?_eq_some_getD r 5 (by omega),
      getElem?_eq_some_getD r 6 (by omega), getElem?_eq_some_getD r 12 (by omega),
      getElem?_eq_some_getD r 13 (by omega), getElem?_eq_some_getD r 16 (by omega)]
  rfl

lemma projectRow_eq_none (r : Row) (h : r.length ≤ 16) :
    projectRow r = none := by
  have h16 : r[16]? = none := by
    rw [List.getElem?_eq_none_iff]; omega
  unfold projectRow
  rcases r[0]? with _ | f0 <;> rcases r[2]? with _ | f2 <;>
    rcases r[4]? with _ | f4 <;> rcases r[5]? with _ | f5 <;>
    rcases r[6]? with _ | f6 <;> rcases r[12]? with _ | f12 <;>
    rcases r[13]? with _ | f13 <;> simp [h16]

lemma processRow_eq_ok_some (r : Row) (p : List String)
    (h : processRow r = .ok (some p)) :
    qualifies r = true ∧ 17 ≤ r.length ∧ p = projFields r := by
  rcases hg : r[10]? with _ | v
  · simp [processRow, hg] at h
  · by_cases hv : v = sentinel
    · subst hv
      rcases hp : projectRow r with _ | q
      · simp [processRow, hg, hp] at h
      · have hlen : 17 ≤ r.length := by
          by_contra hc
          rw [projectRow_eq_none r (by omega)] at hp
          cases hp
        have hs := projectRow_eq_some r hlen
        rw [hp] at hs
        simp [processRow, hg, hp] at h
        refine ⟨by simp [qualifies, hg], hlen, ?_⟩
        rw [← h]
        exact Option.some.inj hs
    · simp [processRow, hg, hv] at h

lemma processRow_eq_ok_none (r : Row) (h : processRow r = .ok none) :
    qualifies r = false ∧ 10 < r.length := by
  rcases hg : r[10]? with _ | v
  · simp [processRow, hg] at h
  · have hlen : 10 < r.length := by
      by_contra hc
      rw [List.getElem?_eq_none_iff.2 (by omega)] at hg
      cases hg
    by_cases hv : v = sentinel
    · subst hv
      rcases hp : projectRow r with _ | q <;> simp [processRow, hg, hp] at h
    · exact ⟨by simp [qualifies, hg, hv], hlen⟩

lemma processRow_eq_error_iff (r : Row) :
    processRow r = .error () ↔
      r.length ≤ 10 ∨ (r[10]? = some sentinel ∧ r.length ≤ 16) := by
  constructor
  · intro h
    rcases hg : r[10]? with _ | v
    · exact Or.inl (by rw [List.getElem?_eq_none_iff] at hg; omega)
    · have hlen : 10 < r.length := by
        by_contra hc
        rw [List.getElem?_eq_none_iff.2 (by omega)] at hg
        cases hg
      by_cases hv : v = sentinel
      · subst hv
        rcases hp : projectRow r with _ | q
        · refine Or.inr ⟨rfl, ?_⟩
          by_contra hc
          rw [projectRow_eq_some r (by omega)] at hp
          cases hp
        · simp [processRow, hg, hp] at h
      · simp [processRow, hg, hv] at h
  · intro h
    rcases h with h | ⟨hg, hlen⟩
    · have hg : r[10]? = none := List.getElem?_eq_none_iff.2 (by omega)
      simp [processRow, hg]
    · simp [processRow, hg, projectRow_eq_none r hlen]


lemma processRows_eq_ok (rows : List Row) (st st' : AggState)
    (h : processRows rows st = .ok st') :
    st'.read = st.read + rows.length ∧
    st'.written = st.written + rows.countP qualifies ∧
    st'.out = st.out ++ (rows.filter qualifies).map projFields := by
  induction rows generalizing st with
  | nil =>
    simp only [processRows] at h
    cases h
    simp
  | cons r rest ih =>
    rcases hr : processRow r with _ | o
    · simp [processRows, hr] at h
    · rcases o with _ | p
      · obtain ⟨hq, -⟩ := processRow_eq_ok_none r hr
        simp only [processRows, hr] at h
        obtain ⟨h1, h2, h3⟩ := ih _ h
        simp only [h1, h2, h3, List.countP_cons, List.filter_cons, hq]
        refine ⟨by simp; omega, by simp, by simp⟩
      · obtain ⟨hq, hlen, hp⟩ := processRow_eq_ok_some r p hr
        simp only [processRows, hr] at h
        obtain ⟨h1, h2, h3⟩ := ih _ h
        simp only [h1, h2, h3, List.countP_cons, List.filter_cons, hq]
        refine ⟨by simp; omega, by simp; omega, by simp [hp]⟩

lemma processRows_eq_error_of_mem (rows : List Row) (r : Row)
    (hr : r ∈ rows) (hbad : processRow r = .error ()) (st : AggState) :
    processRows rows st = .error () := by
  induction rows generalizing st with
  | nil => cases hr
  | cons r0 rest ih =>
    rcases List.mem_cons.1 hr with h | h
    · subst h
      simp [processRows, hbad]
    · rcases h0 : processRow r0 with _ | o
      · simp [processRows, h0]
      · rcases o with _ | p <;> simp only [processRows, h0] <;> exact ih h _

lemma processFiles_eq_ok (files : List (List Row)) (st st' : AggState)
    (h : processFiles files st = .ok st') :
    st'.read = st.read + (dataRows files).length ∧
    st'.written = st.written + (dataRows files).countP qualifies ∧
    st'.out = st.out ++ ((dataRows files).filter qualifies).map projFields := by
  induction files generalizing st with
  | nil =>
    simp only [processFiles] at h
    cases h
    simp [dataRows]
  | cons f fs ih =>
    rcases hf : processFile f st with _ | st1
    · simp [processFiles, hf] at h
    · simp only [processFiles, hf] at h
      obtain ⟨h1, h2, h3⟩ := ih _ h
      rcases f with _ | ⟨hd, rows⟩
      · simp [processFile] at hf
      · simp only [processFile] at hf
        obtain ⟨g1, g2, g3⟩ := processRows_eq_ok rows st st1 hf
        have hd : dataRows (( hd :: rows) :: fs) = rows ++ dataRows fs := by
          simp [dataRows]
        refine ⟨?_, ?_, ?_⟩
        · rw [hd, h1, g1]; simp; omega
        · rw [hd, h2, g2]; simp [List.countP_append]; omega
        · rw [hd, h3, g3]; simp [List.filter_append]

lemma processFiles_eq_error_of_bad_row (files : List (List Row))
    (f : List Row) (r : Row) (hf : f ∈ files) (hr : r ∈ f.tail)
    (hbad : processRow r = .error ()) (st : AggState) :
    processFiles files st = .error () := by
  induction files generalizing st with
  | nil => cases hf
  | cons f0 fs ih =>
    rcases List.mem_cons.1 hf with h | h
    · subst h
      rcases f with _ | ⟨hd, rows⟩
      · simp [processFiles, processFile]
      · simp only [List.tail_cons] at hr
        simp [processFiles, processFile,
              processRows_eq_error_of_mem rows r hr hbad st]
    · rcases hf0 : processFile f0 st with _ | st1
      · simp [processFiles, hf0]
      · simp only [processFiles, hf0]
        exact ih h _

lemma processFiles_eq_error_of_empty (files : List (List Row))
    (hf : [] ∈ files) (st : AggState) :
    processFiles files st = .error () := by
  induction files generalizing st with
  | nil => cases hf
  | cons f0 fs ih =>
    rcases List.mem_cons.1 hf with h | h
    · subst h
      simp [processFiles, processFile]
    · rcases hf0 : processFile f0 st with _ | st1
      · simp [processFiles, hf0]
      · simp only [processFiles, hf0]
        exact ih h _

/-! ## Batch Loader lemmas -/

lemma chunkInserts_cons (r : ConsolidatedRecord) (c : List ConsolidatedRecord) :
    chunkInserts (r :: c) = rowInserts r ++ chunkInserts c := by
  simp [chunkInserts]

lemma foldl_addRecord (c : List ConsolidatedRecord) (st : LoaderState) :
    c.foldl addRecord st =
      { st with batch := st.batch ++ chunkInserts c,
                records := st.records + 3 * c.length } := by
  induction c generalizing st with
  | nil => simp [chunkInserts]
  | cons r c ih =>
    rw [List.foldl_cons, ih]
    simp [addRecord, chunkInserts, List.append_assoc, LoaderState.mk.injEq]
    omega

lemma processChunk_eq (fails : Nat → Bool) (st : LoaderState)
    (c : List ConsolidatedRecord) :
    processChunk fails st c =
      if fails st.submissions then
        ⟨st.batches, st.records + 3 * c.length, st.batch ++ chunkInserts c,
         st.submitted ++ [st.batch ++ chunkInserts c], st.submissions + 1⟩
      else
        ⟨st.batches + 1, st.records + 3 * c.length, [],
         st.submitted ++ [st.batch ++ chunkInserts c], st.submissions + 1⟩ := by
  simp only [processChunk, foldl_addRecord]


lemma foldl_processChunk (fails : Nat → Bool)
    (cs : List (List ConsolidatedRecord)) :
    ∀ st : LoaderState,
      cs.foldl (processChunk fails) st =
        ⟨st.batches + succCount fails st.submissions cs.length,
         st.records + 3 * (cs.map List.length).sum,
         carrySpec fails st.submissions st.batch cs,
         st.submitted ++ submittedSpec fails st.submissions st.batch cs,
         st.submissions + cs.length⟩ := by
  induction cs with
  | nil =>
    intro st
    simp [succCount, carrySpec, submittedSpec]
  | cons c cs ih =>
    intro st
    rw [List.foldl_cons, processChunk_eq]
    by_cases hf : fails st.submissions
    · rw [if_pos hf, ih]
      simp only [succCount, carrySpec, submittedSpec, if_pos hf,
                 List.map_cons, List.sum_cons, List.length_cons,
                 LoaderState.mk.injEq, List.append_assoc, List.cons_append,
                 List.nil_append]
      exact ⟨by omega, by omega, trivial, trivial, by omega⟩
    · rw [if_neg hf, ih]
      simp only [succCount, carrySpec, submittedSpec, if_neg hf,
                 List.map_cons, List.sum_cons, List.length_cons,
                 LoaderState.mk.injEq, List.append_assoc, List.cons_append,
                 List.nil_append]
      exact ⟨by omega, by omega, trivial, trivial, by omega⟩

lemma runLoader_eq (fails : Nat → Bool) (recs : List ConsolidatedRecord) :
    runLoader fails recs =
      ⟨succCount fails 0 (chunks100 recs).length,
       3 * ((chunks100 recs).map List.length).sum,
       carrySpec fails 0 [] (chunks100 recs),
       submittedSpec fails 0 [] (chunks100 recs),
       (chunks100 recs).length⟩ := by
  have h := foldl_processChunk fails (chunks100 recs) initLoader
  simpa [runLoader, initLoader] using h


lemma chunksAux_congr {α : Type} (fuel1 : Nat) :
    ∀ (fuel2 : Nat) (l : List α), l.length ≤ fuel1 → l.length ≤ fuel2 →
      chunksAux fuel1 l = chunksAux fuel2 l := by
  induction fuel1 with
  | zero =>
    intro fuel2 l h1 h2
    have : l = [] := List.eq_nil_of_length_eq_zero (by omega)
    subst this
    cases fuel2 <;> rfl
  | succ f ih =>
    intro fuel2 l h1 h2
    cases l with
    | nil => cases fuel2 <;> rfl
    | cons x rest =>
      cases fuel2 with
      | zero => simp at h2
      | succ g =>
        simp only [chunksAux]
        congr 1
        apply ih
        · simp only [List.length_drop, List.length_cons] at *
          omega
        · simp only [List.length_drop, List.length_cons] at *
          omega

lemma chunks100_cons {α : Type} (l : List α) (h : l ≠ []) :
    chunks100 l = l.take 100 :: chunks100 (l.drop 100) := by
  rcases l with _ | ⟨x, rest⟩
  · cases h rfl
  · show chunksAux (rest.length + 1) (x :: rest) = _
    simp only [chunksAux]
    congr 1
    apply chunksAux_congr
    · simp only [List.length_drop, List.length_cons]
      omega
    · simp [List.length_drop]

lemma chunks100_length_of_le {α : Type} :
    ∀ (n : Nat) (l : List α), l.length ≤ n →
      (chunks100 l).length = (l.length + 99) / 100 := by
  intro n
  induction n with
  | zero =>
    intro l h
    have : l = [] := List.eq_nil_of_length_eq_zero (by omega)
    subst this
    rw [show chunks100 ([] : List α) = [] from rfl]
    simp
  | succ n ih =>
    intro l h
    rcases hl : l with _ | ⟨x, rest⟩
    · rw [show chunks100 ([] : List α) = [] from rfl]
      simp
    · rw [← hl, chunks100_cons l (by simp [hl])]
      have hd := ih (l.drop 100) (by simp [List.length_drop]; subst hl; simp at h ⊢; omega)
      simp only [List.length_cons, hd, List.length_drop]
      subst hl
      simp only [List.length_cons]
      omega

lemma chunks100_sum_of_le {α : Type} :
    ∀ (n : Nat) (l : List α), l.length ≤ n →
      ((chunks100 l).map List.length).sum = l.length := by
  intro n
  induction n with
  | zero =>
    intro l h
    have : l = [] := List.eq_nil_of_length_eq_zero (by omega)
    subst this
    rfl
  | succ n ih =>
    intro l h
    rcases hl : l with _ | ⟨x, rest⟩
    · rfl
    · rw [← hl, chunks100_cons l (by simp [hl])]
      have hd := ih (l.drop 100) (by simp [List.length_drop]; subst hl; simp at h ⊢; omega)
      simp only [List.map_cons, List.sum_cons, hd, List.length_drop,
                 List.length_take]
      subst hl
      simp only [List.length_cons]
      omega

lemma submittedSpec_length (fails : Nat → Bool)
    (cs : List (List ConsolidatedRecord)) :
    ∀ (k : Nat) (carry : List Stmt),
      (submittedSpec fails k carry cs).length = cs.length := by
  induction cs with
  | nil => intro k carry; rfl
  | cons c cs ih =>
    intro k carry
    simp only [submittedSpec, List.length_cons, ih]

lemma submittedSpec_getD (fails : Nat → Bool)
    (cs : List (List ConsolidatedRecord)) :
    ∀ (k : Nat) (carry : List Stmt) (i : Nat), i < cs.length →
      ∃ pre, (submittedSpec fails k carry cs).getD i [] =
        pre ++ chunkInserts (cs.getD i []) := by
  induction cs with
  | nil => intro k carry i h; simp at h
  | cons c cs ih =>
    intro k carry i h
    cases i with
    | zero => exact ⟨carry, rfl⟩
    | succ i =>
      simp only [List.getD_cons_succ, submittedSpec]
      exact ih _ _ i (by simp at h; omega)

/-! ## Claims

One theorem per claim of the specification review, with the witnesses and
counterexamples that accompany them.
-/

set_option maxRecDepth 10000 in
/-- Claim C1, counterexample: the claim that a failed window's batch is
discarded before the next window is false.  With 101 records (two windows)
and a failing first submission, the second submitted batch holds 303
statements — the 300 of the failed first window followed by the 3 of its own
window — instead of exactly its own window's 3 inserts. -/
theorem c1_counterexample :
    (runLoader (fun k => k == 0)
        (List.replicate 101 sampleRecord)).submitted.getD 1 [] ≠
      chunkInserts ((chunks100 (List.replicate 101 sampleRecord)).getD 1 []) ∧
    ((runLoader (fun k => k == 0)
        (List.replicate 101 sampleRecord)).submitted.getD 1 []).length = 303 ∧
    (chunkInserts
      ((chunks100 (List.replicate 101 sampleRecord)).getD 1 [])).length = 3 := by
  refine ⟨by decide, by decide, by decide⟩

/-- Claim C1 as amended: on a failed submission the loader logs the failure
and proceeds to the next window with no retry (one submission per window),
but the failed window's batch is NOT discarded: `batch.clear()` runs only in
the success (`else`) branch, so each submitted batch consists of the
statements of every window failed since the last success followed by its own
window's three-per-record inserts — the recurrence captured by
`submittedSpec` (and the batch left at the end by `carrySpec`). -/
theorem c1_batch_carryover (fails : Nat → Bool)
    (recs : List ConsolidatedRecord) :
    (runLoader fails recs).submitted = submittedSpec fails 0 [] (chunks100 recs) ∧
    (runLoader fails recs).submissions = (chunks100 recs).length ∧
    (runLoader fails recs).batch = carrySpec fails 0 [] (chunks100 recs) := by
  rw [runLoader_eq]
  exact ⟨rfl, rfl, rfl⟩

/-- Claim C2: for a run of the Aggregator that completes, the number of data
rows in the consolidated output equals the number of data rows, across all
discovered files, whose field at index 10 equals the sentinel `"NextSong"`
exactly; the emitted counters satisfy `written` = qualifying rows,
`read` = all data rows, and the printed `discarded` value is
`read - written`. -/
theorem c2_aggregator_count (files : List (List Row)) (st : AggState)
    (h : aggregate files = .ok st) :
    st.out.length = (dataRows files).countP qualifies ∧
    st.written = (dataRows files).countP qualifies ∧
    st.read = (dataRows files).length ∧
    st.read - st.written =
      (dataRows files).length - (dataRows files).countP qualifies := by
  obtain ⟨h1, h2, h3⟩ := processFiles_eq_ok files initAgg st h
  simp [initAgg] at h1 h2 h3
  refine ⟨?_, h2, h1, by omega⟩
  rw [h3]
  simp [List.countP_eq_length_filter]

/-- Witness for C2 at a concrete input: one file with a header, one
qualifying and one non-qualifying row. -/
theorem c2_witness :
    aggregate sampleFiles = .ok sampleAggSt ∧
    sampleAggSt.out.length = (dataRows sampleFiles).countP qualifies ∧
    sampleAggSt.written = (dataRows sampleFiles).countP qualifies ∧
    sampleAggSt.read = (dataRows sampleFiles).length ∧
    sampleAggSt.read - sampleAggSt.written =
      (dataRows sampleFiles).length - (dataRows sampleFiles).countP qualifies :=
  ⟨rfl, c2_aggregator_count sampleFiles sampleAggSt rfl⟩

/-- Claim C3, counterexample: the claim that the emitted batch count equals
the number of batch submissions is false.  With one record and a failing
submission the loader performs 1 submission but prints `Batches: 0`, because
`batches += 1` runs only in the success branch. -/
theorem c3_counterexample :
    (runLoader (fun _ => true) [sampleRecord]).submissions = 1 ∧
    (runLoader (fun _ => true) [sampleRecord]).batches = 0 ∧
    (runLoader (fun _ => true) [sampleRecord]).batches ≠
      (runLoader (fun _ => true) [sampleRecord]).submissions := by
  refine ⟨by decide, by decide, by decide⟩

/-- Claim C3 as amended: loading N consolidated records performs exactly
⌈N / 100⌉ batch submissions (`(N + 99) / 100` in natural division) and emits
an attempted-row-insert count of exactly 3 × N, both irrespective of how
many submissions fail; the emitted batch count, however, equals the number
of SUCCESSFUL submissions (`succCount`), not the number submitted. -/
theorem c3_loader_metrics (fails : Nat → Bool)
    (recs : List ConsolidatedRecord) :
    (runLoader fails recs).submissions = (recs.length + 99) / 100 ∧
    (runLoader fails recs).records = 3 * recs.length ∧
    (runLoader fails recs).batches =
      succCount fails 0 ((recs.length + 99) / 100) := by
  have hl := chunks100_length_of_le recs.length recs (le_refl _)
  have hs := chunks100_sum_of_le recs.length recs (le_refl _)
  rw [runLoader_eq]
  exact ⟨hl, by rw [hs], by rw [hl]⟩

/-- Claim C4, counterexample: the claim that a failure dropping one table is
not fatal to dropping the other two is false.  When `songs_by_session` does
not exist but the other two tables do, the single `try` block aborts at the
first `DROP`, the error is reported once, and `songs_by_user` and
`users_by_song` remain in place. -/
theorem c4_counterexample :
    (teardown ⟨false, true, true⟩ ⟨true, true⟩).1 = ⟨false, true, true⟩ ∧
    (teardown ⟨false, true, true⟩ ⟨true, true⟩).2.1 =
      some "Error while dropping the table" := by
  exact ⟨rfl, rfl⟩

/-- Claim C4 as amended: the three drops run sequentially inside a single
`try` block; the first failure is caught and reported once and aborts the
remaining drops (missing tables are therefore reported, not fatal to the
process), and the session and the cluster connection are then released
unconditionally.  All drops succeed with no report exactly when all three
tables exist. -/
theorem c4_teardown (t : Tables) (c : Connection) :
    (teardown t c).2.2 = ⟨false, false⟩ ∧
    ((teardown t c).2.1 = none ↔ t = ⟨true, true, true⟩) ∧
    (teardown t c).1 =
      (if t.songs_by_session = false then t
       else if t.songs_by_user = false then ⟨false, false, t.users_by_song⟩
       else ⟨false, false, false⟩) := by
  obtain ⟨a, b, d⟩ := t
  obtain ⟨e, f⟩ := c
  cases a <;> cases b <;> cases d <;> cases e <;> cases f <;>
    exact ⟨rfl, by decide, by decide⟩

/-- Claim C5: on a completed run, the consolidated data rows are exactly the
qualifying input rows projected to the fields at offsets
0, 2, 4, 5, 6, 12, 13, 16 in that order; the output is the header
(artist_name, user_first_name, item_in_session, user_last_name, song_length,
session_id, song_title, user_id) followed by those rows, every field wrapped
in quotes, and the file is rewritten from scratch — its final content is the
same whatever it held before the run. -/
theorem c5_projection_and_format (files : List (List Row)) (st : AggState)
    (h : aggregate files = .ok st) :
    st.out = ((dataRows files).filter qualifies).map projFields ∧
    (∀ prev, runAggregator files prev = .ok (outputText st)) ∧
    outputText st = String.join ((headerRow :: st.out).map renderRow) ∧
    (∀ s, ∃ t, quoteField s = "\"" ++ t ++ "\"") := by
  obtain ⟨-, -, h3⟩ := processFiles_eq_ok files initAgg st h
  simp [initAgg] at h3
  exact ⟨h3, fun prev => by simp [runAggregator, h, Except.map], rfl,
         fun s => ⟨escapeQuotes s, rfl⟩⟩

/-- Witness for C5 at a concrete input. -/
theorem c5_witness :
    aggregate sampleFiles = .ok sampleAggSt ∧
    sampleAggSt.out = ((dataRows sampleFiles).filter qualifies).map projFields ∧
    (∀ prev, runAggregator sampleFiles prev = .ok (outputText sampleAggSt)) :=
  ⟨rfl, (c5_projection_and_format sampleFiles sampleAggSt rfl).1,
        (c5_projection_and_format sampleFiles sampleAggSt rfl).2.1⟩

/-- Claim C6: a data row lacking a field at a position the Aggregator
references while processing it — index 10 is referenced for every row, and
the projection positions up to 16 for rows whose field 10 is the sentinel —
makes the entire aggregation end in the uncaught index error: the run's
result is the error, so no row is recovered and nothing after the failing
row is processed. -/
theorem c6_malformed_row_fatal (files : List (List Row)) (f : List Row) (r : Row)
    (hf : f ∈ files) (hr : r ∈ f.tail)
    (hbad : r.length ≤ 10 ∨ (r[10]? = some sentinel ∧ r.length ≤ 16)) :
    aggregate files = .error () :=
  processFiles_eq_error_of_bad_row files f r hf hr
    ((processRow_eq_error_iff r).2 hbad) initAgg

/-- Witness for C6: a one-field data row aborts the run. -/
theorem c6_witness :
    (["f00"] : Row).length ≤ 10 ∧
    aggregate [[["hdr"], ["f00"]]] = .error () :=
  ⟨by decide,
   c6_malformed_row_fatal [[["hdr"], ["f00"]]] [["hdr"], ["f00"]] ["f00"]
     (by simp) (by simp) (Or.inl (by decide))⟩

/-- Claim C7: for every pattern of per-window submission failures the loader
runs to completion: it performs one submission per window for every window
(a failure for window k is caught locally and does not prevent later windows
from being submitted), and each window's own inserts are part of its
submission. -/
theorem c7_loader_terminates (fails : Nat → Bool)
    (recs : List ConsolidatedRecord) :
    (runLoader fails recs).submissions = (chunks100 recs).length ∧
    (runLoader fails recs).submitted.length = (chunks100 recs).length ∧
    ∀ k, k < (chunks100 recs).length →
      ∃ carried, (runLoader fails recs).submitted.getD k [] =
        carried ++ chunkInserts ((chunks100 recs).getD k []) := by
  rw [runLoader_eq]
  exact ⟨rfl, submittedSpec_length fails (chunks100 recs) 0 [],
         fun k hk => submittedSpec_getD fails (chunks100 recs) 0 [] k hk⟩

/-- Witness for C7 at a concrete input where every submission fails. -/
theorem c7_witness :
    (runLoader (fun _ => true) [sampleRecord]).submissions =
      (chunks100 [sampleRecord]).length ∧
    (0 : Nat) < (chunks100 [sampleRecord]).length ∧
    ∃ carried, (runLoader (fun _ => true) [sampleRecord]).submitted.getD 0 [] =
      carried ++ chunkInserts ((chunks100 [sampleRecord]).getD 0 []) :=
  ⟨(c7_loader_terminates (fun _ => true) [sampleRecord]).1, by decide,
   (c7_loader_terminates (fun _ => true) [sampleRecord]).2.2 0 (by decide)⟩

/-- Claim C8: the Aggregator is deterministic over the discovered files: the
consolidated file is opened in truncate mode, so a run's output is
independent of whatever the file held before — in particular re-running
over an unchanged input in the same discovery order reproduces the output
byte for byte. -/
theorem c8_rerun_byte_identical (files : List (List Row))
    (prev1 prev2 out : String)
    (h : runAggregator files prev1 = .ok out) :
    runAggregator files prev2 = .ok out := h

/-- Witness for C8: a second run over `sampleFiles`, starting from the file
content the first run left behind, produces the same content. -/
theorem c8_witness :
    runAggregator sampleFiles "" = .ok (outputText sampleAggSt) ∧
    runAggregator sampleFiles (outputText sampleAggSt) =
      .ok (outputText sampleAggSt) :=
  ⟨rfl, c8_rerun_byte_identical sampleFiles "" (outputText sampleAggSt)
          (outputText sampleAggSt) rfl⟩

/-- Claim C9: a data row with at least 11 fields whose field 10 is not the
sentinel is silently discarded — processing continues with the next row
(only `read` is bumped) — and an index error occurs in row processing
exactly when an index the code actually evaluates is out of range: index 10
for every row, and the projection indices (max 16) only for qualifying
rows. -/
theorem c9_abort_only_on_evaluated_index (r : Row)
    (h11 : 11 ≤ r.length) (hns : r[10]? ≠ some sentinel) :
    processRow r = .ok none ∧
    (∀ rest st, processRows (r :: rest) st =
      processRows rest { st with read := st.read + 1 }) ∧
    (∀ row : Row, processRow row = .error () ↔
      row.length ≤ 10 ∨ (row[10]? = some sentinel ∧ row.length ≤ 16)) := by
  have hv : ∃ v, r[10]? = some v := by
    rcases hg : r[10]? with _ | v
    · rw [List.getElem?_eq_none_iff] at hg
      omega
    · exact ⟨v, rfl⟩
  obtain ⟨v, hg⟩ := hv
  have hvs : v ≠ sentinel := fun hh => hns (hh ▸ hg)
  have hok : processRow r = .ok none := by simp [processRow, hg, hvs]
  exact ⟨hok, fun rest st => by simp [processRows, hok],
         processRow_eq_error_iff⟩

/-- Witness for C9 at a concrete 17-field row with event type `"Login"`. -/
theorem c9_witness :
    11 ≤ nRow.length ∧ nRow[10]? ≠ some sentinel ∧
    processRow nRow = .ok none :=
  ⟨by decide, by decide,
   (c9_abort_only_on_evaluated_index nRow (by decide) (by decide)).1⟩

/-- Claim C10: a discovered file with no lines at all makes the header skip
(`next(reader)`) raise an uncaught `StopIteration` that aborts the entire
run: the whole aggregation is the error, and the result does not depend on
any file listed after the empty one (nothing later is processed). -/
theorem c10_empty_file_aborts (pre post : List (List Row)) :
    aggregate (pre ++ [] :: post) = .error () ∧
    aggregate (pre ++ [] :: post) = aggregate (pre ++ [[]]) := by
  have h1 : aggregate (pre ++ [] :: post) = .error () :=
    processFiles_eq_error_of_empty _ (by simp) initAgg
  have h2 : aggregate (pre ++ [[]]) = .error () :=
    processFiles_eq_error_of_empty _ (by simp) initAgg
  exact ⟨h1, h1.trans h2.symm⟩

end Sparkify
